import Mathlib

/-!
Shallow embedding of the Emotech ASR streaming/non-streaming demo clients
(`streaming_client.py`, `main.py`, `non_streaming_client.py`) and proofs about
the streaming session protocol: message construction, base64 framing, audio
chunking, segment slicing, the outbound send traces of the microphone and the
file flows, and the inbound message handlers.

Bytes are modelled as `Nat` values (with a `< 256` bound where it matters),
byte strings as `List Nat`, Python float arithmetic on the small closed-form
expressions of the source (`int(x // 8)`, `0.1 * ...`) as exact rational
arithmetic with explicit floors, and the shared `threading.Event` as a
monotone boolean observed at successive check points.
-/

namespace ASRClients

/-! ### Base64 (the `base64.b64encode` / `b64decode` pair used for text framing) -/

/-- The base64 alphabet: value `n < 64` to its character. -/
def b64Char (n : Nat) : Char :=
  if n < 26 then Char.ofNat (65 + n)
  else if n < 52 then Char.ofNat (97 + (n - 26))
  else if n < 62 then Char.ofNat (48 + (n - 52))
  else if n = 62 then '+'
  else '/'

/-- Inverse of the base64 alphabet on its image. -/
def b64Val (c : Char) : Nat :=
  if 65 ≤ c.toNat ∧ c.toNat ≤ 90 then c.toNat - 65
  else if 97 ≤ c.toNat ∧ c.toNat ≤ 122 then c.toNat - 97 + 26
  else if 48 ≤ c.toNat ∧ c.toNat ≤ 57 then c.toNat - 48 + 52
  else if c = '+' then 62
  else 63

/-- Standard base64 encoding of a byte string, with `'='` padding. -/
def b64encode : List Nat → List Char
  | [] => []
  | [a] => [b64Char (a / 4), b64Char (a % 4 * 16), '=', '=']
  | [a, b] => [b64Char (a / 4), b64Char (a % 4 * 16 + b / 16), b64Char (b % 16 * 4), '=']
  | a :: b :: c :: rest =>
      b64Char (a / 4) :: b64Char (a % 4 * 16 + b / 16) ::
        b64Char (b % 16 * 4 + c / 64) :: b64Char (c % 64) :: b64encode rest

/-- Standard base64 decoding (quadruples of characters, honouring padding). -/
def b64decode : List Char → List Nat
  | w :: x :: y :: z :: rest =>
      if y = '=' then [b64Val w * 4 + b64Val x / 16]
      else if z = '=' then
        [b64Val w * 4 + b64Val x / 16, b64Val x % 16 * 16 + b64Val y / 4]
      else
        (b64Val w * 4 + b64Val x / 16) :: (b64Val x % 16 * 16 + b64Val y / 4) ::
          (b64Val y % 4 * 64 + b64Val z) :: b64decode rest
  | _ => []

/-! ### Chunking (`audio[i : i + chunk_size] for i in range(0, len(audio), chunk_size)`) -/

/-- One slicing step per fuel unit; `fuel = l.length` always suffices when
`0 < cs`, since every step drops at least one element. -/
def chunksOfAux (cs : Nat) : Nat → List α → List (List α)
  | 0, _ => []
  | _, [] => []
  | fuel + 1, a :: l => (a :: l).take cs :: chunksOfAux cs fuel ((a :: l).drop cs)

/-- Successive slices of length `cs` of a list, mirroring the Python chunk
generator `(audio[i:i+chunk_size] for i in range(0, len(audio), chunk_size))`
(which is only ever run with a positive `chunk_size`; `range` with step 0
raises in Python, modelled as the empty chunk list). -/
def chunksOf (cs : Nat) (l : List α) : List (List α) :=
  if cs = 0 then [] else chunksOfAux cs l.length l

/-! ### Command-line arguments of `streaming_client.py` (`handle_args`) -/

/-- The full option surface of `streaming_client.py::handle_args`. There is no
option for a non-partial interval. `rtf_threshold` is a Python float (default
0.3), modelled as an exact rational; the client never computes with it. -/
structure Args where
  request_id : String
  sample_rate : Nat
  encoding : String
  language : String
  base64 : Bool
  single_utterance : Bool
  channels : Nat
  rtf_threshold : ℚ
  silence_threshold : Nat
  partial_interval : Nat
  file : String
  snsd : String
deriving DecidableEq

/-! ### Wire messages (`asr_start_message`, `asr_audio_message`, `asr_stop_message`) -/

/-- The `params` object of the start message. -/
structure StartParams where
  encoding : String
  sample_rate : Nat
  channel_count : Nat
deriving DecidableEq

/-- The `config` object of the start message. -/
structure StartConfig where
  single_utterance : Bool
  rtf_threshold : ℚ
  silence_threshold : Nat
  partial_interval : Nat
  non_partial_interval : Nat
deriving DecidableEq

/-- The JSON object built by `streaming_client.py::asr_start_message`. -/
structure StartMessage where
  request : String
  params : StartParams
  config : StartConfig
  channel_index : Option Nat
  request_id : Option String
deriving DecidableEq

/-- `asr_start_message(args)`. The function reads the module-level global
`request_id` in its guard (`if request_id != ""`) but puts `args.request_id`
into the message; `globalRequestId` is that global. -/
def asr_start_message (globalRequestId : String) (args : Args) : StartMessage :=
  { request := "start"
    params :=
      { encoding := args.encoding
        sample_rate := args.sample_rate
        channel_count := args.channels }
    config :=
      { single_utterance := args.single_utterance
        rtf_threshold := args.rtf_threshold
        silence_threshold := args.silence_threshold
        partial_interval := args.partial_interval
        non_partial_interval := 3000 }
    channel_index := none
    request_id := if globalRequestId ≠ "" then some args.request_id else none }

/-- The JSON object built by `streaming_client.py::asr_audio_message`:
`{"request": "audio", "data": base64(data)}`. -/
structure AudioMessage where
  request : String
  data : List Char
deriving DecidableEq

def asr_audio_message (data : List Nat) : AudioMessage :=
  { request := "audio", data := b64encode data }

/-- The JSON object built by `main.py::asr_audio_message`:
`{"type": "asraudio", "data": base64(data)}` (`tag` models the `type` key). -/
structure MainAudioMessage where
  tag : String
  data : List Char
deriving DecidableEq

def main_asr_audio_message (data : List Nat) : MainAudioMessage :=
  { tag := "asraudio", data := b64encode data }

/-! ### Session initialisation (`streaming_client.py::main`) and `on_open` -/

/-- One process run of the streaming client: the parsed command-line arguments
and the token `str(uuid.uuid4())` that `main` would generate. -/
structure SessionRun where
  cliArgs : Args
  uuid : String
deriving DecidableEq

/-- `request_id = args.request_id if args.request_id != "" else str(uuid.uuid4())`
(the module-level global set in `main`). -/
def globalRequestId (r : SessionRun) : String :=
  if r.cliArgs.request_id ≠ "" then r.cliArgs.request_id else r.uuid

/-- `args.request_id = request_id`: the argument record used by the send
thread after `main`'s initialisation. -/
def mainArgs (r : SessionRun) : Args :=
  { r.cliArgs with request_id := globalRequestId r }

/-- The start message sent by `on_open`. `on_open` calls `handle_args()`
again, so it builds the message from the freshly re-parsed command-line
arguments (`r.cliArgs`), not from the records updated in `main`. -/
def on_open_message (r : SessionRun) : StartMessage :=
  asr_start_message (globalRequestId r) r.cliArgs

/-! ### Capture format selection and persistence (`record_and_send`) -/

inductive AudioFormat where
  | paInt16
  | paInt32
  | paFloat32
deriving DecidableEq

inductive NumpyDtype where
  | int16
  | int32
  | float32
deriving DecidableEq

/-- The `if/elif` ladder at the top of `streaming_client.py::record_and_send`:
the effective encoding (the code overwrites `args.encoding` in the `f64`
branch), the chosen `pyaudio` format, and whether the f64 warning is logged. -/
def selectCaptureFormat (encoding : String) : String × AudioFormat × Bool :=
  if encoding = "s16" then (encoding, AudioFormat.paInt16, false)
  else if encoding = "s32" then (encoding, AudioFormat.paInt32, false)
  else if encoding = "f32" then (encoding, AudioFormat.paFloat32, false)
  else ("f32", AudioFormat.paFloat32, true)

/-- The `np.frombuffer` dtype ladder in the `finally` block of
`record_and_send`; the final `else` is `np.float32` because pyaudio cannot
capture f64. -/
def persistDtype (encoding : String) : NumpyDtype :=
  if encoding = "s16" then NumpyDtype.int16
  else if encoding = "s32" then NumpyDtype.int32
  else if encoding = "f32" then NumpyDtype.float32
  else NumpyDtype.float32

/-- Same ladder in `main.py::record_and_send`, over the `…le` encoding names. -/
def selectCaptureFormatMain (encoding : String) : String × AudioFormat × Bool :=
  if encoding = "s16le" then (encoding, AudioFormat.paInt16, false)
  else if encoding = "s32le" then (encoding, AudioFormat.paInt32, false)
  else if encoding = "f32le" then (encoding, AudioFormat.paFloat32, false)
  else ("f32le", AudioFormat.paFloat32, true)

/-! ### Outbound actions and the shared termination event -/

/-- One observable transport or filesystem action of the outbound flow. -/
inductive Action where
  | sendStart (m : StartMessage)
  | sendAudio (m : AudioMessage)
  | sendBytes (data : List Nat)
  | sendStop
  | fileWrite (name : String) (dtype : NumpyDtype) (data : List Nat)
  | close
deriving DecidableEq

def isStart : Action → Bool
  | Action.sendStart _ => true
  | _ => false

def isStop : Action → Bool
  | Action.sendStop => true
  | _ => false

def isFileWrite : Action → Bool
  | Action.fileWrite _ _ _ => true
  | _ => false

def isClose : Action → Bool
  | Action.close => true
  | _ => false

/-- The raw frame bytes carried by an audio action (recovering the frame from
its base64 envelope in the text-framing case). -/
def actionPayload : Action → List Nat
  | Action.sendAudio m => b64decode m.data
  | Action.sendBytes data => data
  | _ => []

/-- `ws.send_text(asr_audio_message(chunk))` under base64 framing,
`ws.send_bytes(chunk)` otherwise (the source duplicates the loop per framing;
the embedding parametrises the shared body). -/
def sendChunkAction (base64 : Bool) (data : List Nat) : Action :=
  if base64 then Action.sendAudio (asr_audio_message data) else Action.sendBytes data

/-- The shared `threading.Event`, observed at successive `is_set()` calls
(check index `t`): it reads true iff some `set()` was requested at or before
check `t`. Several setters model the inbound and outbound flows both calling
`set()`; the event is monotone, so only the earliest request matters. -/
def eventIsSet (setters : List Nat) (t : Nat) : Bool :=
  setters.any fun s => s ≤ t

/-! ### The microphone flow (`streaming_client.py::record_and_send`) -/

/-- The capture loop `while not finish_event.is_set(): data = stream.read(…);
audio_buffer.append(data); send`. Returns the sent actions and the capture
buffer. `fuel` bounds the unrolling; the loop itself only stops on the event. -/
def recordLoop (isSet : Nat → Bool) (frames : Nat → List Nat) (base64 : Bool) :
    Nat → Nat → List Action × List (List Nat)
  | 0, _ => ([], [])
  | fuel + 1, t =>
    if isSet t then ([], [])
    else
      let d := frames t
      let r := recordLoop isSet frames base64 fuel (t + 1)
      (sendChunkAction base64 d :: r.1, d :: r.2)

/-- `streaming_client.py::record_and_send`: capture-format selection, the
send loop, then the `finally` block — write `<request_id>.wav` from the
joined capture buffer, set the event, release the device, `ws.close()`. -/
def record_and_send (isSet : Nat → Bool) (frames : Nat → List Nat) (args : Args)
    (fuel : Nat) : List Action :=
  let enc := (selectCaptureFormat args.encoding).1
  let r := recordLoop isSet frames args.base64 fuel 0
  r.1 ++ [Action.fileWrite ("./" ++ args.request_id ++ ".wav") (persistDtype enc) r.2.flatten,
    Action.close]

/-- A microphone session's outbound connection trace: the `on_open` start
message followed by the `record_and_send` thread's actions. -/
def micConnTrace (r : SessionRun) (setters : List Nat) (frames : Nat → List Nat)
    (fuel : Nat) : List Action :=
  Action.sendStart (on_open_message r) :: record_and_send (eventIsSet setters) frames (mainArgs r) fuel

/-! ### The file flow (`streaming_client.py::read_and_send`) -/

/-- `int(args.encoding[1:])`, over the four encodings admitted by
`handle_args` (`choices=["s16", "s32", "f32", "f64"]`). -/
def encodingBits (encoding : String) : Nat :=
  if encoding = "s16" then 16
  else if encoding = "s32" then 32
  else if encoding = "f32" then 32
  else if encoding = "f64" then 64
  else 0

/-- `int(time_ms / 1000 * sample_rate * bits // 8)`: Python float arithmetic
modelled as exact rational arithmetic, `//` as the floor, `int` of the
non-negative integral result as `Int.toNat`. -/
def byteIdx (time_ms sample_rate bits : Nat) : Nat :=
  (Int.floor (((time_ms : ℚ) / 1000 * sample_rate * bits) / 8)).toNat

/-- Python slice `l[a:b]`. -/
def pySlice (l : List Nat) (a b : Nat) : List Nat :=
  (l.take b).drop a

/-- The `audios` list of `read_and_send`: the whole decoded buffer as the
single sentinel segment when no snsd segments are given, else one
`(audio_bytes, start_ms, end_ms)` triple per segment, sliced at `byteIdx`
offsets. -/
def segmentsToAudios (bytes : List Nat) (segments : List (Nat × Nat))
    (sample_rate bits : Nat) : List (List Nat × Nat × Nat) :=
  if segments = [] then [(bytes, 0, 0)]
  else segments.map fun seg =>
    (pySlice bytes (byteIdx seg.1 sample_rate bits) (byteIdx seg.2 sample_rate bits),
      seg.1, seg.2)

/-- `chunk_size = int(seconds * args.sample_rate * bits // 8)` with
`seconds = 0.1`. -/
def chunk_size (sample_rate bits : Nat) : Nat :=
  (Int.floor ((1 : ℚ) / 10 * sample_rate * bits / 8)).toNat

/-- `chunk_size = 2 * sample_rate * (bit_depth // 8)` of
`main.py::read_and_send` (2-second bulk chunks). -/
def main_chunk_size (sample_rate bit_depth : Nat) : Nat :=
  2 * sample_rate * (bit_depth / 8)

/-- The inner chunk loop of `read_and_send`: `for chunk in chunks: if
finish_event.is_set(): break; send; sleep`. Threads the check index and
returns it together with the actions sent. -/
def sendChunks (isSet : Nat → Bool) (base64 : Bool) :
    Nat → List (List Nat) → Nat × List Action
  | t, [] => (t, [])
  | t, c :: cs =>
    if isSet t then (t + 1, [])
    else
      let r := sendChunks isSet base64 (t + 1) cs
      (r.1, sendChunkAction base64 c :: r.2)

/-- The `for audio, start_time_ms, end_time_ms in audios` loop of
`read_and_send`: chunk and send each segment, then — unless the event is
set — send `asr_stop_message()`, sleep 1 s, and send `asr_start_message(args)`
again. -/
def processAudios (isSet : Nat → Bool) (restartMsg : StartMessage) (base64 : Bool)
    (cs : Nat) : Nat → List (List Nat × Nat × Nat) → List Action
  | _, [] => []
  | t, a :: rest =>
    let r := sendChunks isSet base64 t (chunksOf cs a.1)
    if isSet r.1 then r.2 ++ processAudios isSet restartMsg base64 cs (r.1 + 1) rest
    else
      r.2 ++ [Action.sendStop, Action.sendStart restartMsg] ++
        processAudios isSet restartMsg base64 cs (r.1 + 1) rest

/-- `streaming_client.py::read_and_send` after the ffmpeg decode: slice the
decoded buffer into segment audios, stream them, and `ws.close()`. -/
def read_and_send (isSet : Nat → Bool) (globalRid : String) (bytes : List Nat)
    (segments : List (Nat × Nat)) (args : Args) : List Action :=
  let bits := encodingBits args.encoding
  let audios := segmentsToAudios bytes segments args.sample_rate bits
  let cs := chunk_size args.sample_rate bits
  processAudios isSet (asr_start_message globalRid args) args.base64 cs 0 audios ++
    [Action.close]

/-- A file session's outbound connection trace: the `on_open` start message
followed by the `read_and_send` thread's actions. -/
def fileConnTrace (r : SessionRun) (isSet : Nat → Bool) (bytes : List Nat)
    (segments : List (Nat × Nat)) : List Action :=
  Action.sendStart (on_open_message r) ::
    read_and_send isSet (globalRequestId r) bytes segments (mainArgs r)

/-! ### The inbound flow (`on_message`, `on_close`) -/

/-- A decoded inbound result: the finalization flag plus the other fields,
passed through opaquely. -/
structure TranscriptionResult where
  is_partial : Bool
  rest : String
deriving DecidableEq

inductive InboundOutput where
  | printed (r : TranscriptionResult)
  | decodeError
  | closeLogged (code reason : String)
deriving DecidableEq

/-- The inbound flow's state: the shared event (as seen from this side) and
the result-sink output. -/
structure InboundState where
  finish_event : Bool
  output : List InboundOutput
deriving DecidableEq

/-- `streaming_client.py::on_message`: `json.loads` then print on success
(`message = some r`), `logger.error` on a decode failure (`none`). It does
not touch `finish_event`. -/
def on_message (st : InboundState) (message : Option TranscriptionResult) : InboundState :=
  match message with
  | some r => { st with output := st.output ++ [InboundOutput.printed r] }
  | none => { st with output := st.output ++ [InboundOutput.decodeError] }

/-- `streaming_client.py::on_close`: `finish_event.set()` and a log line. -/
def on_close (st : InboundState) (code reason : String) : InboundState :=
  { finish_event := true, output := st.output ++ [InboundOutput.closeLogged code reason] }

/-! ### ffmpeg decode parameters of the file flow -/

/-- `acodec = "pcm_" + args.encoding + "le"` in `read_and_send`. -/
def file_acodec (args : Args) : String :=
  "pcm_" ++ args.encoding ++ "le"

/-- The `format=args.encoding + "le"` output argument in `read_and_send`. -/
def file_format (args : Args) : String :=
  args.encoding ++ "le"

/-! ### The spec's offset formula (for comparison with `byteIdx`) -/

/-- Modelled from the spec: the segment-offset conversion the spec states,
`offset = round(time_ms / 1000 * sample_rate * bits_per_sample / 8)` — to be
compared with `byteIdx`, the conversion the source performs. -/
def spec_offset (time_ms sample_rate bits : Nat) : ℤ :=
  round (((time_ms : ℚ) / 1000 * sample_rate * bits) / 8)

/-! ### A concrete session used in the evaluation theorems -/

/-- A concrete parsed command line: no caller-supplied request id, `s16`
samples, binary framing, single-utterance mode. The tiny sample rate keeps
the 100 ms chunk size at 2 bytes so traces stay small. -/
def sampleArgs : Args :=
  { request_id := ""
    sample_rate := 10
    encoding := "s16"
    language := "auto"
    base64 := false
    single_utterance := true
    channels := 1
    rtf_threshold := 3 / 10
    silence_threshold := 600
    partial_interval := 500
    file := "audio.wav"
    snsd := "" }

/-- A run of the client on `sampleArgs`, with `str(uuid.uuid4())` having
produced `"uuid-1"`. -/
def sampleRun : SessionRun :=
  { cliArgs := sampleArgs, uuid := "uuid-1" }

/-- The sample command line with `--encoding f64`. -/
def f64Args : Args :=
  { sampleArgs with encoding := "f64" }

/-! ## Helper lemmas -/

theorem b64Val_b64Char : ∀ n, n < 64 → b64Val (b64Char n) = n := by decide

theorem b64Char_ne_pad : ∀ n, n < 64 → b64Char n ≠ '=' := by decide

theorem b64decode_b64encode :
    ∀ l : List Nat, (∀ x ∈ l, x < 256) → b64decode (b64encode l) = l
  | [], _ => rfl
  | [a], h => by
    have ha : a < 256 := h a (by simp)
    simp only [b64encode, b64decode]
    rw [b64Val_b64Char _ (by omega), b64Val_b64Char _ (by omega)]
    simp
    omega
  | [a, b], h => by
    have ha : a < 256 := h a (by simp)
    have hb : b < 256 := h b (by simp)
    simp only [b64encode, b64decode]
    rw [if_neg (b64Char_ne_pad _ (by omega))]
    rw [b64Val_b64Char _ (by omega), b64Val_b64Char _ (by omega),
      b64Val_b64Char _ (by omega)]
    simp
    constructor <;> omega
  | a :: b :: c :: rest, h => by
    have ha : a < 256 := h a (by simp)
    have hb : b < 256 := h b (by simp)
    have hc : c < 256 := h c (by simp)
    have hrest : ∀ x ∈ rest, x < 256 := fun x hx => h x (by simp [hx])
    simp only [b64encode, b64decode]
    rw [if_neg (b64Char_ne_pad _ (by omega)), if_neg (b64Char_ne_pad _ (by omega))]
    rw [b64Val_b64Char _ (by omega), b64Val_b64Char _ (by omega),
      b64Val_b64Char _ (by omega), b64Val_b64Char _ (by omega)]
    have h1 : a / 4 * 4 + (a % 4 * 16 + b / 16) / 16 = a := by omega
    have h2 : (a % 4 * 16 + b / 16) % 16 * 16 + (b % 16 * 4 + c / 64) / 4 = b := by omega
    have h3 : (b % 16 * 4 + c / 64) % 4 * 64 + c % 64 = c := by omega
    rw [h1, h2, h3, b64decode_b64encode rest hrest]

theorem chunksOfAux_join (cs : Nat) (hcs : 0 < cs) :
    ∀ (fuel : Nat) (l : List α), l.length ≤ fuel → (chunksOfAux cs fuel l).flatten = l
  | 0, l, h => by
    have : l = [] := List.eq_nil_of_length_eq_zero (by omega)
    simp [this, chunksOfAux]
  | fuel + 1, [], _ => rfl
  | fuel + 1, a :: l, h => by
    rw [chunksOfAux, List.flatten_cons,
      chunksOfAux_join cs hcs fuel ((a :: l).drop cs)
        (by simp only [List.length_drop, List.length_cons] at *; omega),
      List.take_append_drop]

theorem chunksOf_join (cs : Nat) (hcs : 0 < cs) (l : List α) :
    (chunksOf cs l).flatten = l := by
  rw [chunksOf, if_neg (by omega)]
  exact chunksOfAux_join cs hcs l.length l le_rfl

theorem byteIdx_eq (t sr bits : Nat) : byteIdx t sr bits = t * sr * bits / 8000 := by
  have hq : ((t : ℚ) / 1000 * sr * bits) / 8 = ((t * sr * bits : ℕ) : ℚ) / ((8000 : ℕ) : ℚ) := by
    push_cast
    ring
  rw [byteIdx, hq, Int.floor_toNat, Nat.floor_div_eq_div]

theorem chunk_size_eq (sr bits : Nat) : chunk_size sr bits = sr * bits / 80 := by
  have hq : (1 : ℚ) / 10 * sr * bits / 8 = ((sr * bits : ℕ) : ℚ) / ((80 : ℕ) : ℚ) := by
    push_cast
    ring
  rw [chunk_size, hq, Int.floor_toNat, Nat.floor_div_eq_div]

theorem eventIsSet_earliest (s : Nat) (extra : List Nat) (h : ∀ x ∈ extra, s ≤ x) :
    eventIsSet (s :: extra) = eventIsSet [s] := by
  funext t
  simp only [eventIsSet, List.any_cons, List.any_nil, Bool.or_false]
  by_cases hst : s ≤ t
  · simp [hst]
  · have hx : ∀ x ∈ extra, ¬x ≤ t := fun x hx hxt => hst (le_trans (h x hx) hxt)
    simp only [decide_eq_false hst, Bool.false_or]
    rw [List.any_eq_false.mpr fun x hxm => by simpa using hx x hxm]

theorem sendChunkAction_not_ctl (p : Action → Bool)
    (hp : (∀ m, p (Action.sendAudio m) = false) ∧ ∀ d, p (Action.sendBytes d) = false)
    (b : Bool) (d : List Nat) : p (sendChunkAction b d) = false := by
  cases b <;> simp [sendChunkAction, hp.1, hp.2]

theorem recordLoop_countP (p : Action → Bool) (hp : ∀ b d, p (sendChunkAction b d) = false)
    (isSet : Nat → Bool) (frames : Nat → List Nat) (base64 : Bool) :
    ∀ fuel t, ((recordLoop isSet frames base64 fuel t).1).countP p = 0
  | 0, _ => rfl
  | fuel + 1, t => by
    rw [recordLoop]
    by_cases h : isSet t
    · simp [h]
    · simp only [h, if_false, Bool.false_eq_true, List.countP_cons, hp]
      exact recordLoop_countP p hp isSet frames base64 fuel (t + 1)

theorem sendChunks_never (base64 : Bool) :
    ∀ (t : Nat) (cl : List (List Nat)),
      sendChunks (fun _ => false) base64 t cl =
        (t + cl.length, cl.map (sendChunkAction base64))
  | _, [] => by simp [sendChunks]
  | t, c :: cl => by
    rw [sendChunks]
    simp only [if_false, Bool.false_eq_true, List.map_cons, List.length_cons,
      sendChunks_never base64 (t + 1) cl]
    exact Prod.ext (by omega) rfl

theorem processAudios_never (m : StartMessage) (base64 : Bool) (cs : Nat) :
    ∀ (t : Nat) (audios : List (List Nat × Nat × Nat)),
      processAudios (fun _ => false) m base64 cs t audios =
        (audios.map fun a =>
          (chunksOf cs a.1).map (sendChunkAction base64) ++
            [Action.sendStop, Action.sendStart m]).flatten
  | _, [] => rfl
  | t, a :: audios => by
    rw [processAudios]
    simp only [sendChunks_never, if_false, Bool.false_eq_true, List.map_cons,
      List.flatten_cons, processAudios_never m base64 cs _ audios]

theorem read_and_send_never (globalRid : String) (bytes : List Nat)
    (segments : List (Nat × Nat)) (args : Args) :
    read_and_send (fun _ => false) globalRid bytes segments args =
      ((segmentsToAudios bytes segments args.sample_rate (encodingBits args.encoding)).map
          fun a =>
            (chunksOf (chunk_size args.sample_rate (encodingBits args.encoding)) a.1).map
              (sendChunkAction args.base64) ++
            [Action.sendStop, Action.sendStart (asr_start_message globalRid args)]).flatten ++
      [Action.close] := by
  rw [read_and_send, processAudios_never]

theorem payload_of_chunkActions (base64 : Bool) :
    ∀ cl : List (List Nat), (∀ c ∈ cl, ∀ x ∈ c, x < 256) →
      (cl.map (sendChunkAction base64)).map actionPayload = cl
  | [], _ => rfl
  | c :: cl, h => by
    have hc : actionPayload (sendChunkAction base64 c) = c := by
      cases base64
      · rfl
      · exact b64decode_b64encode c fun x hx => h c (by simp) x hx
    simp only [List.map_cons, hc,
      payload_of_chunkActions base64 cl fun d hd x hx => h d (by simp [hd]) x hx]

theorem eventIsSet_mono (setters : List Nat) {s t : Nat} (hst : s ≤ t)
    (h : eventIsSet setters s = true) : eventIsSet setters t = true := by
  simp only [eventIsSet, List.any_eq_true, decide_eq_true_eq] at h ⊢
  obtain ⟨x, hx, hxs⟩ := h
  exact ⟨x, hx, by omega⟩

theorem sendChunks_counter_ge (isSet : Nat → Bool) (base64 : Bool) :
    ∀ (t : Nat) (cl : List (List Nat)), t ≤ (sendChunks isSet base64 t cl).1
  | _, [] => le_rfl
  | t, c :: cl => by
    rw [sendChunks]
    by_cases h : isSet t
    · simp [h]
    · simp only [h, if_false, Bool.false_eq_true]
      exact le_trans (Nat.le_succ t) (sendChunks_counter_ge isSet base64 (t + 1) cl)

theorem sendChunks_cut_isSet (setters : List Nat) (base64 : Bool) :
    ∀ (t : Nat) (cl : List (List Nat)),
      ((sendChunks (eventIsSet setters) base64 t cl).2).length < cl.length →
      eventIsSet setters (sendChunks (eventIsSet setters) base64 t cl).1 = true
  | t, [], h => absurd h (by simp [sendChunks])
  | t, c :: cl, h => by
    rw [sendChunks] at h ⊢
    by_cases hs : eventIsSet setters t
    · simp only [hs, if_true]
      exact eventIsSet_mono setters (Nat.le_succ t) hs
    · simp only [hs, if_false, Bool.false_eq_true, List.length_cons] at h ⊢
      exact sendChunks_cut_isSet setters base64 (t + 1) cl (by omega)

theorem sendChunks_countP (p : Action → Bool) (hp : ∀ b d, p (sendChunkAction b d) = false)
    (isSet : Nat → Bool) (base64 : Bool) :
    ∀ (t : Nat) (cl : List (List Nat)), ((sendChunks isSet base64 t cl).2).countP p = 0
  | _, [] => rfl
  | t, c :: cl => by
    rw [sendChunks]
    by_cases h : isSet t
    · simp [h]
    · simp only [h, if_false, Bool.false_eq_true, List.countP_cons, hp]
      exact sendChunks_countP p hp isSet base64 (t + 1) cl

theorem processAudios_countP_after_set (p : Action → Bool)
    (hp : ∀ b d, p (sendChunkAction b d) = false) (setters : List Nat)
    (m : StartMessage) (base64 : Bool) (cs : Nat) :
    ∀ (t : Nat) (audios : List (List Nat × Nat × Nat)), eventIsSet setters t = true →
      (processAudios (eventIsSet setters) m base64 cs t audios).countP p = 0
  | _, [], _ => rfl
  | t, a :: rest, h => by
    rw [processAudios]
    have hr : eventIsSet setters (sendChunks (eventIsSet setters) base64 t (chunksOf cs a.1)).1
        = true :=
      eventIsSet_mono setters (sendChunks_counter_ge (eventIsSet setters) base64 t _) h
    simp only [hr, if_true, List.countP_append]
    rw [sendChunks_countP p hp (eventIsSet setters) base64 t _,
      processAudios_countP_after_set p hp setters m base64 cs _ rest
        (eventIsSet_mono setters (Nat.le_succ _) hr)]

/-! ## Claims -/

/-- C1 (counterexample): a microphone session terminated by the shared event
(a signal set, not an external kill) closes the connection without ever
sending a stop message, so "the stop message is always sent before the
connection closes" fails on the code. -/
theorem mic_no_stop_counterexample :
    (micConnTrace sampleRun [2] (fun i => [i]) 4).countP isStop = 0 ∧
    (micConnTrace sampleRun [2] (fun i => [i]) 4).countP isClose = 1 := by
  constructor <;> rfl

/-- C1 (amended): the first message on the connection is the start message in
both flows; the microphone flow sends no stop at all before closing; the file
flow, when termination does not intervene, sends per segment its audio chunks
in order followed by a stop and then a further start (so every cycle begins
with start, but the final start dangles before the close); and a cycle the
termination signal cuts short contributes only the chunks sent before the
cut — its stop (and restart start) is omitted, and no stop or start at all is
sent after the signal is set. -/
theorem outbound_wire_order :
    (∀ (r : SessionRun) (setters : List Nat) (frames : Nat → List Nat) (fuel : Nat),
        (micConnTrace r setters frames fuel).head? =
          some (Action.sendStart (on_open_message r)) ∧
        (micConnTrace r setters frames fuel).countP isStop = 0) ∧
    (∀ (r : SessionRun) (bytes : List Nat) (segments : List (Nat × Nat)),
        fileConnTrace r (fun _ => false) bytes segments =
          Action.sendStart (on_open_message r) ::
            (((segmentsToAudios bytes segments (mainArgs r).sample_rate
                  (encodingBits (mainArgs r).encoding)).map fun a =>
                (chunksOf
                    (chunk_size (mainArgs r).sample_rate
                      (encodingBits (mainArgs r).encoding)) a.1).map
                  (sendChunkAction (mainArgs r).base64) ++
                [Action.sendStop,
                  Action.sendStart
                    (asr_start_message (globalRequestId r) (mainArgs r))]).flatten ++
              [Action.close])) ∧
    (∀ (setters : List Nat) (base64 : Bool) (m : StartMessage) (cs t : Nat)
        (a : List Nat × Nat × Nat) (rest : List (List Nat × Nat × Nat)),
        ((sendChunks (eventIsSet setters) base64 t (chunksOf cs a.1)).2).length <
          (chunksOf cs a.1).length →
        processAudios (eventIsSet setters) m base64 cs t (a :: rest) =
            (sendChunks (eventIsSet setters) base64 t (chunksOf cs a.1)).2 ++
              processAudios (eventIsSet setters) m base64 cs
                ((sendChunks (eventIsSet setters) base64 t (chunksOf cs a.1)).1 + 1) rest ∧
          (processAudios (eventIsSet setters) m base64 cs t (a :: rest)).countP isStop = 0 ∧
          (processAudios (eventIsSet setters) m base64 cs t (a :: rest)).countP isStart
            = 0) := by
  refine ⟨?_, ?_, ?_⟩
  · intro r setters frames fuel
    refine ⟨rfl, ?_⟩
    simp only [micConnTrace, record_and_send, List.countP_cons, List.countP_append]
    rw [recordLoop_countP isStop
      (sendChunkAction_not_ctl isStop ⟨fun _ => rfl, fun _ => rfl⟩)]
    rfl
  · intro r bytes segments
    simp only [fileConnTrace]
    rw [read_and_send_never]
  · intro setters base64 m cs t a rest hcut
    have hset : eventIsSet setters
        (sendChunks (eventIsSet setters) base64 t (chunksOf cs a.1)).1 = true :=
      sendChunks_cut_isSet setters base64 t _ hcut
    have heq : processAudios (eventIsSet setters) m base64 cs t (a :: rest) =
        (sendChunks (eventIsSet setters) base64 t (chunksOf cs a.1)).2 ++
          processAudios (eventIsSet setters) m base64 cs
            ((sendChunks (eventIsSet setters) base64 t (chunksOf cs a.1)).1 + 1) rest := by
      rw [processAudios]
      simp only [hset, if_true]
    refine ⟨heq, ?_, ?_⟩ <;>
      rw [heq, List.countP_append,
        sendChunks_countP _ (sendChunkAction_not_ctl _ ⟨fun _ => rfl, fun _ => rfl⟩)
          (eventIsSet setters) base64 t _,
        processAudios_countP_after_set _
          (sendChunkAction_not_ctl _ ⟨fun _ => rfl, fun _ => rfl⟩) setters m base64 cs _ rest
          (eventIsSet_mono setters (Nat.le_succ _) hset)]

/-- C1 witness: a whole-file cycle of two chunks cut after its first chunk by
a signal set at check 1 sends that one chunk and then neither stop nor
restart. -/
theorem outbound_wire_order_witness :
    (((sendChunks (eventIsSet [1]) false 0 (chunksOf 2 [0, 1, 2, 3])).2).length <
        (chunksOf 2 [0, 1, 2, 3]).length) ∧
    (processAudios (eventIsSet [1])
          (asr_start_message (globalRequestId sampleRun) (mainArgs sampleRun)) false 2 0
          [([0, 1, 2, 3], 0, 0)] =
        (sendChunks (eventIsSet [1]) false 0 (chunksOf 2 [0, 1, 2, 3])).2 ++
          processAudios (eventIsSet [1])
            (asr_start_message (globalRequestId sampleRun) (mainArgs sampleRun)) false 2
            ((sendChunks (eventIsSet [1]) false 0 (chunksOf 2 [0, 1, 2, 3])).1 + 1) [] ∧
      (processAudios (eventIsSet [1])
          (asr_start_message (globalRequestId sampleRun) (mainArgs sampleRun)) false 2 0
          [([0, 1, 2, 3], 0, 0)]).countP isStop = 0 ∧
      (processAudios (eventIsSet [1])
          (asr_start_message (globalRequestId sampleRun) (mainArgs sampleRun)) false 2 0
          [([0, 1, 2, 3], 0, 0)]).countP isStart = 0) :=
  ⟨by decide,
    outbound_wire_order.2.2 [1] false
      (asr_start_message (globalRequestId sampleRun) (mainArgs sampleRun)) 2 0
      ([0, 1, 2, 3], 0, 0) [] (by decide)⟩

/-- C2: the termination event is idempotent — further `set()` requests at or
after the first leave the microphone session's outbound trace unchanged, and
that trace performs exactly one cleanup: one waveform write, one close, at
most one stop. -/
theorem termination_cleanup_exactly_once (s : Nat) (extra : List Nat)
    (hextra : ∀ x ∈ extra, s ≤ x) (r : SessionRun) (frames : Nat → List Nat)
    (fuel : Nat) (_hfuel : s < fuel) :
    micConnTrace r (s :: extra) frames fuel = micConnTrace r [s] frames fuel ∧
    (micConnTrace r (s :: extra) frames fuel).countP isFileWrite = 1 ∧
    (micConnTrace r (s :: extra) frames fuel).countP isClose = 1 ∧
    (micConnTrace r (s :: extra) frames fuel).countP isStop ≤ 1 := by
  have hstop : (micConnTrace r (s :: extra) frames fuel).countP isStop = 0 := by
    simp only [micConnTrace, record_and_send, List.countP_cons, List.countP_append]
    rw [recordLoop_countP isStop
      (sendChunkAction_not_ctl isStop ⟨fun _ => rfl, fun _ => rfl⟩)]
    rfl
  refine ⟨?_, ?_, ?_, by omega⟩
  · simp only [micConnTrace, eventIsSet_earliest s extra hextra]
  · simp only [micConnTrace, record_and_send, List.countP_cons, List.countP_append]
    rw [recordLoop_countP isFileWrite
      (sendChunkAction_not_ctl isFileWrite ⟨fun _ => rfl, fun _ => rfl⟩)]
    rfl
  · simp only [micConnTrace, record_and_send, List.countP_cons, List.countP_append]
    rw [recordLoop_countP isClose
      (sendChunkAction_not_ctl isClose ⟨fun _ => rfl, fun _ => rfl⟩)]
    rfl

/-- C2 witness: a concrete schedule with three `set()` requests (inbound and
outbound both setting the event) collapses to the earliest one. -/
theorem termination_cleanup_exactly_once_witness :
    (∀ x ∈ [5, 2], 2 ≤ x) ∧ 2 < 4 ∧
    (micConnTrace sampleRun [2, 5, 2] (fun i => [i]) 4 =
        micConnTrace sampleRun [2] (fun i => [i]) 4 ∧
      (micConnTrace sampleRun [2, 5, 2] (fun i => [i]) 4).countP isFileWrite = 1 ∧
      (micConnTrace sampleRun [2, 5, 2] (fun i => [i]) 4).countP isClose = 1 ∧
      (micConnTrace sampleRun [2, 5, 2] (fun i => [i]) 4).countP isStop ≤ 1) :=
  ⟨by decide, by decide,
    termination_cleanup_exactly_once 2 [5, 2] (by decide) sampleRun (fun i => [i]) 4
      (by decide)⟩

/-- C3: a file session whose snsd input yields no segments (one whole-file
cycle, so no further SpeechSegments remain) still sends a start message after
the final stop, immediately before the close — the restart guard checks the
event but not whether more segments remain. -/
theorem restart_sent_after_last_segment :
    fileConnTrace sampleRun (fun _ => false) [0, 1, 2, 3] [] =
      [Action.sendStart (on_open_message sampleRun),
        Action.sendBytes [0, 1], Action.sendBytes [2, 3],
        Action.sendStop,
        Action.sendStart (asr_start_message (globalRequestId sampleRun) (mainArgs sampleRun)),
        Action.close] ∧
    (fileConnTrace sampleRun (fun _ => false) [0, 1, 2, 3] []).countP isStart = 2 := by
  have h : fileConnTrace sampleRun (fun _ => false) [0, 1, 2, 3] [] =
      [Action.sendStart (on_open_message sampleRun),
        Action.sendBytes [0, 1], Action.sendBytes [2, 3],
        Action.sendStop,
        Action.sendStart (asr_start_message (globalRequestId sampleRun) (mainArgs sampleRun)),
        Action.close] := by
    simp only [fileConnTrace]
    rw [read_and_send_never, chunk_size_eq]
    rfl
  exact ⟨h, by rw [h]; rfl⟩

/-- C4 (counterexample): in a single-utterance session, the inbound handler
receiving a decoded result whose finalization flag marks it final leaves the
shared event unset — the claim says it must set the TerminationSignal. -/
theorem final_result_does_not_set_signal :
    sampleArgs.single_utterance = true ∧
    (on_message { finish_event := false, output := [] }
        (some { is_partial := false, rest := "transcript" })).finish_event = false :=
  ⟨rfl, rfl⟩

/-- C4 (amended): the inbound message handler never changes the shared event,
whatever the message (final or not, decodable or not); the event is set by
the inbound side only in the close handler. -/
theorem inbound_sets_signal_only_on_close :
    (∀ (st : InboundState) (m : Option TranscriptionResult),
        (on_message st m).finish_event = st.finish_event) ∧
    (∀ (st : InboundState) (code reason : String),
        (on_close st code reason).finish_event = true) := by
  refine ⟨fun st m => ?_, fun st code reason => rfl⟩
  cases m <;> rfl

/-- C5: on a session with no caller-supplied request id, the generated token
becomes the global request id (non-empty), yet the start message built in
`on_open` — from freshly re-parsed command-line arguments — carries the
re-parsed empty string in its `request_id` field, not the generated token. -/
theorem on_open_drops_generated_request_id :
    globalRequestId sampleRun = "uuid-1" ∧
    (on_open_message sampleRun).request_id = some "" ∧
    (on_open_message sampleRun).request_id ≠ some (globalRequestId sampleRun) := by
  refine ⟨rfl, rfl, ?_⟩
  decide

/-- C6: for every positive chunk size (hence for the 100 ms paced and the
2-second bulk policies alike) and both framings, concatenating the audio
payloads sent in one uninterrupted streaming cycle — by the streaming
client's chunk loop and by `main.py`'s — reconstructs exactly the cycle's
source byte buffer. -/
theorem cycle_chunks_reconstruct_source (cs : Nat) (hcs : 0 < cs) (audio : List Nat)
    (hb : ∀ x ∈ audio, x < 256) (base64 : Bool) (t : Nat) :
    ((((sendChunks (fun _ => false) base64 t (chunksOf cs audio)).2).map
        actionPayload).flatten = audio) ∧
    (((chunksOf cs audio).map fun c =>
        b64decode (main_asr_audio_message c).data).flatten = audio) ∧
    (chunksOf cs audio).flatten = audio := by
  have hmem : ∀ c ∈ chunksOf cs audio, ∀ x ∈ c, x < 256 := fun c hc x hx =>
    hb x ((chunksOf_join cs hcs audio) ▸ List.mem_flatten.mpr ⟨c, hc, hx⟩)
  refine ⟨?_, ?_, chunksOf_join cs hcs audio⟩
  · rw [sendChunks_never]
    show (((chunksOf cs audio).map (sendChunkAction base64)).map actionPayload).flatten = audio
    rw [payload_of_chunkActions base64 _ hmem]
    exact chunksOf_join cs hcs audio
  · have hmap : ((chunksOf cs audio).map fun c =>
        b64decode (main_asr_audio_message c).data) = chunksOf cs audio := by
      conv_rhs => rw [← List.map_id (chunksOf cs audio)]
      exact List.map_congr_left fun c hc => b64decode_b64encode c (hmem c hc)
    rw [hmap]
    exact chunksOf_join cs hcs audio

/-- C6 witness: a concrete cycle with chunk size 2 over five bytes, base64
framing. -/
theorem cycle_chunks_reconstruct_source_witness :
    0 < 2 ∧ (∀ x ∈ [10, 20, 30, 40, 50], x < 256) ∧
    (((((sendChunks (fun _ => false) true 0 (chunksOf 2 [10, 20, 30, 40, 50])).2).map
          actionPayload).flatten = [10, 20, 30, 40, 50]) ∧
      (((chunksOf 2 [10, 20, 30, 40, 50]).map fun c =>
          b64decode (main_asr_audio_message c).data).flatten = [10, 20, 30, 40, 50]) ∧
      (chunksOf 2 [10, 20, 30, 40, 50]).flatten = [10, 20, 30, 40, 50]) :=
  ⟨by decide, by decide,
    cycle_chunks_reconstruct_source 2 (by decide) [10, 20, 30, 40, 50] (by decide) true 0⟩

/-- C7 (counterexample): at `time_ms = 3`, `sample_rate = 44100`, 16-bit
samples, the source computes offset 264 (floor of 264.6) while the spec's
formula rounds to 265. -/
theorem byteIdx_not_round :
    byteIdx 3 44100 16 = 264 ∧ spec_offset 3 44100 16 = 265 ∧
    (byteIdx 3 44100 16 : ℤ) ≠ spec_offset 3 44100 16 := by
  have h1 : byteIdx 3 44100 16 = 264 := by rw [byteIdx_eq]
  have h2 : spec_offset 3 44100 16 = 265 := by
    rw [spec_offset, round_eq]
    have hq : (((3 : ℕ) : ℚ) / 1000 * ((44100 : ℕ) : ℚ) * ((16 : ℕ) : ℚ)) / 8 + 1 / 2 =
        ((4241600 : ℤ) : ℚ) / ((16000 : ℕ) : ℚ) := by
      push_cast
      norm_num
    rw [hq, Rat.floor_intCast_div_natCast]
    decide
  exact ⟨h1, h2, by rw [h1, h2]; decide⟩

/-- C7 (amended): segment times are converted to byte offsets with the
floor, not the round: `byteIdx time_ms sr bits = time_ms * sr * bits / 8000`
(integer floor division), and this conversion is applied to the start and
end of every supplied segment. -/
theorem byteIdx_floor_offsets :
    (∀ t sr bits, byteIdx t sr bits = t * sr * bits / 8000) ∧
    (∀ (bytes : List Nat) (segments : List (Nat × Nat)) (sr bits s e : Nat),
        (s, e) ∈ segments →
        (pySlice bytes (byteIdx s sr bits) (byteIdx e sr bits), s, e) ∈
          segmentsToAudios bytes segments sr bits) := by
  refine ⟨byteIdx_eq, ?_⟩
  intro bytes segments sr bits s e hmem
  have hne : segments ≠ [] := fun hnil => by
    rw [hnil] at hmem
    exact absurd hmem (List.not_mem_nil _)
  rw [segmentsToAudios, if_neg hne]
  exact List.mem_map.mpr ⟨(s, e), hmem, rfl⟩

/-- C7 witness: the floor conversion applied to a concrete segment list. -/
theorem byteIdx_floor_offsets_witness :
    ((3, 5) ∈ [((3 : Nat), (5 : Nat))]) ∧
    (pySlice [0, 1, 2] (byteIdx 3 10 16) (byteIdx 5 10 16), 3, 5) ∈
      segmentsToAudios [0, 1, 2] [(3, 5)] 10 16 :=
  ⟨by decide, byteIdx_floor_offsets.2 [0, 1, 2] [(3, 5)] 10 16 3 5 (by decide)⟩

/-- C8: requesting `f64` on a capture session selects f32 for the capture
format with the warning flag raised and persists float32 samples, while the
file flow hands `f64` verbatim to the decoder (`pcm_f64le`, `f64le`) and
streams 64-bit-wide samples. -/
theorem f64_capture_downgrade (args : Args) (h : args.encoding = "f64") :
    selectCaptureFormat args.encoding = ("f32", AudioFormat.paFloat32, true) ∧
    persistDtype (selectCaptureFormat args.encoding).1 = NumpyDtype.float32 ∧
    selectCaptureFormatMain "f64le" = ("f32le", AudioFormat.paFloat32, true) ∧
    file_acodec args = "pcm_f64le" ∧
    file_format args = "f64le" ∧
    encodingBits args.encoding = 64 := by
  refine ⟨?_, ?_, rfl, ?_, ?_, ?_⟩ <;>
    simp [h, selectCaptureFormat, persistDtype, file_acodec, file_format, encodingBits]

/-- C8 witness: the downgrade at the concrete `--encoding f64` command line. -/
theorem f64_capture_downgrade_witness :
    f64Args.encoding = "f64" ∧
    (selectCaptureFormat f64Args.encoding = ("f32", AudioFormat.paFloat32, true) ∧
      persistDtype (selectCaptureFormat f64Args.encoding).1 = NumpyDtype.float32 ∧
      selectCaptureFormatMain "f64le" = ("f32le", AudioFormat.paFloat32, true) ∧
      file_acodec f64Args = "pcm_f64le" ∧
      file_format f64Args = "f64le" ∧
      encodingBits f64Args.encoding = 64) :=
  ⟨rfl, f64_capture_downgrade f64Args rfl⟩

/-- C9: under base64 framing, decoding the `data` payload of the encoded
audio message recovers exactly the original frame bytes, for both clients'
audio-message builders. -/
theorem base64_roundtrip_law (frame : List Nat) (h : ∀ x ∈ frame, x < 256) :
    b64decode (asr_audio_message frame).data = frame ∧
    b64decode (main_asr_audio_message frame).data = frame :=
  ⟨b64decode_b64encode frame h, b64decode_b64encode frame h⟩

/-- C9 witness: the round trip on a concrete frame. -/
theorem base64_roundtrip_law_witness :
    (∀ x ∈ [0, 255, 77], x < 256) ∧
    (b64decode (asr_audio_message [0, 255, 77]).data = [0, 255, 77] ∧
      b64decode (main_asr_audio_message [0, 255, 77]).data = [0, 255, 77]) :=
  ⟨by decide, base64_roundtrip_law [0, 255, 77] (by decide)⟩

/-- C10: every start message the streaming client builds fixes
`config.non_partial_interval` to 3000, whatever the parsed command line and
whatever the global request id — the argument surface has no option for it. -/
theorem non_partial_interval_fixed (globalRid : String) (args : Args) :
    (asr_start_message globalRid args).config.non_partial_interval = 3000 :=
  rfl

end ASRClients
